import Mathlib

/-!
Shallow embedding of the parser-combinator contract of
`src/core/src/common/combinator.rs` (trait `Parser<T, E>`), instantiated at
the concrete conforming stream the repository itself supplies in that same
file (the test stream `TP`): an input token list, a cursor index and a
single saved-checkpoint slot, with `error` being the identity on message
strings.  Tokens stay generic (`T` with decidable equality and a rendering
function standing for the `Display` bound); errors are `String`s, exactly
the values `TP::error` produces.

Every derived operation (`next`, `predicate`, `atom`, `string`, `try`,
`choose`, `many`, `many1`, `optional`) is translated clause by clause from
the Rust source.  The two unbounded loops (`many`, `many1`) take an explicit
fuel argument standing for the number of loop iterations the Rust `loop`
performs; all theorems about them supply fuel strictly larger than the
number of iterations actually taken, so the fuel-exhaustion branch is never
reached and the embedding agrees with the source on every terminating run.
-/

set_option linter.unusedSectionVars false

namespace Combinator

/-- The stream state of `TP` in `src/core/src/common/combinator.rs`:
`input`, `cursor` and the single checkpoint slot `saved_cursor`. -/
structure St (T : Type) where
  input : List T
  cursor : Nat
  savedCursor : Nat
deriving DecidableEq, Repr

variable {T : Type} [DecidableEq T] {α : Type}

/-- `TP::preview`: the next token, without consuming it. -/
def preview (s : St T) : Option T := s.input[s.cursor]?

/-- `TP::consume`: return and advance past the next token, or nothing at end. -/
def consume (s : St T) : Option T × St T :=
  match s.input[s.cursor]? with
  | some x => (some x, { s with cursor := s.cursor + 1 })
  | none => (none, s)

/-- `TP::save`: record the current cursor in the single checkpoint slot. -/
def save (s : St T) : St T := { s with savedCursor := s.cursor }

/-- `TP::load`: restore the cursor from the checkpoint slot. -/
def load (s : St T) : St T := { s with cursor := s.savedCursor }

/-- A parsing operation: what a Rust closure `Fn(&mut Self) -> Result<O, E>`
is over the `TP` stream — a state transformer returning a result or an
error message. -/
def POp (T : Type) (α : Type) : Type := St T → Except String α × St T

/-- Whether an `Except` result is a success. -/
def isOkE {ε β : Type} : Except ε β → Bool
  | .ok _ => true
  | .error _ => false

instance {ε β : Type} [DecidableEq ε] [DecidableEq β] : DecidableEq (Except ε β) := fun a b =>
  match a, b with
  | .ok x, .ok y =>
      if h : x = y then .isTrue (congrArg Except.ok h)
      else .isFalse (fun hc => h (Except.ok.inj hc))
  | .ok _, .error _ => .isFalse (fun hc => Except.noConfusion hc)
  | .error _, .ok _ => .isFalse (fun hc => Except.noConfusion hc)
  | .error x, .error y =>
      if h : x = y then .isTrue (congrArg Except.error h)
      else .isFalse (fun hc => h (Except.error.inj hc))

/-- `Parser::next`: `self.consume().ok_or(self.error("unexpected eof"))`. -/
def next : POp T T := fun s =>
  match consume s with
  | (some x, s1) => (.ok x, s1)
  | (none, s1) => (.error "unexpected eof", s1)

/-- `Parser::predicate`: consume one token via `next`; fail with
`"unexpected token {x}"` when the predicate rejects it. -/
def predicate (render : T → String) (pred : T → Bool) : POp T T := fun s =>
  match next s with
  | (.ok x, s1) =>
      if pred x then (.ok x, s1)
      else (.error ("unexpected token " ++ render x), s1)
  | (.error e, s1) => (.error e, s1)

/-- `Parser::atom`: consume one token via `next`; fail with
`"unexpected token {x}, expected {expected}"` when it differs. -/
def atom (render : T → String) (expected : T) : POp T T := fun s =>
  match next s with
  | (.ok x, s1) =>
      if x = expected then (.ok x, s1)
      else (.error ("unexpected token " ++ render x ++ ", expected " ++ render expected), s1)
  | (.error e, s1) => (.error e, s1)

/-- The loop body of `Parser::string`: run `atom` for each expected token,
accumulating the returned tokens, propagating the first error. -/
def stringGo (render : T → String) : List T → List T → POp T (List T)
  | [], acc => fun s => (.ok acc.reverse, s)
  | c :: cs, acc => fun s =>
      match atom render c s with
      | (.ok x, s1) => stringGo render cs (x :: acc) s1
      | (.error e, s1) => (.error e, s1)

/-- `Parser::string`: consume a fixed sequence of expected tokens via `atom`;
the collected tokens are returned as a `List` (the `FromIterator` container). -/
def string (render : T → String) (q : List T) : POp T (List T) :=
  stringGo render q []

/-- `Parser::try` (named `tryP` because `try` is reserved in Lean): save,
run the operation, and on failure load before propagating the error. -/
def tryP (op : POp T α) : POp T α := fun s =>
  match op (save s) with
  | (.ok x, s1) => (.ok x, s1)
  | (.error e, s1) => (.error e, load s1)

/-- The error message `Parser::choose` synthesizes after all candidates
failed: from the token `preview` returns, or `"unexpected eof"`. -/
def chooseErrMsg (render : T → String) (s : St T) : String :=
  match preview s with
  | some x => "unexpected token " ++ render x
  | none => "unexpected eof"

/-- `Parser::choose`: run each candidate under `try`, returning the first
success; when the list is exhausted, synthesize an error from `preview`. -/
def choose (render : T → String) : List (POp T α) → POp T α
  | [] => fun s => (.error (chooseErrMsg render s), s)
  | op :: rest => fun s =>
      match tryP op s with
      | (.ok x, s1) => (.ok x, s1)
      | (.error _, s1) => choose render rest s1

/-- The loop of `Parser::many`: run the operation under `try` until an
attempt fails, accumulating results.  `fuel` bounds the number of loop
iterations (the Rust loop is unbounded). -/
def manyGo (op : POp T α) : Nat → List α → POp T (List α)
  | 0, acc => fun s => (.ok acc.reverse, s)
  | fuel + 1, acc => fun s =>
      match tryP op s with
      | (.ok x, s1) => manyGo op fuel (x :: acc) s1
      | (.error _, s1) => (.ok acc.reverse, s1)

/-- `Parser::many` with an explicit iteration bound `fuel`. -/
def many (op : POp T α) (fuel : Nat) : POp T (List α) := manyGo op fuel []

/-- `Parser::many1`: the first application is run directly (not under
`try`), then the same `try`-protected loop as `many`. -/
def many1 (op : POp T α) (fuel : Nat) : POp T (List α) := fun s =>
  match op s with
  | (.ok x, s1) => manyGo op fuel [x] s1
  | (.error e, s1) => (.error e, s1)

/-- `Parser::optional`: run the operation under `try` and discard result
and error alike; always succeeds with unit. -/
def optional (op : POp T α) : POp T Unit := fun s =>
  (.ok (), (tryP op s).2)

/-- An operation is checkpoint-oblivious ("tame") when it never reads or
writes the stream's single checkpoint slot and never edits the input: its
result and final cursor are independent of `savedCursor`, and it returns
`input` and `savedCursor` unchanged.  `next`, `predicate`, `atom` and
`string` are tame; operations containing `tryP` are not, because `tryP`
overwrites the slot. -/
def Tame (op : POp T α) : Prop :=
  ∀ (i : List T) (c sv : Nat),
    (op ⟨i, c, sv⟩).1 = (op ⟨i, c, 0⟩).1 ∧
    (op ⟨i, c, sv⟩).2 = ⟨i, (op ⟨i, c, 0⟩).2.cursor, sv⟩

/-- The state after one successful `try`-wrapped loop iteration of
`many`/`many1`/`choose`: save, then run the operation. -/
def stepSt (op : POp T α) (s : St T) : St T := (op (save s)).2

/-- The state after `k` successful `try`-wrapped iterations. -/
def iterSt (op : POp T α) : Nat → St T → St T
  | 0, s => s
  | k + 1, s => iterSt op k (stepSt op s)

/-- `RunSteps op k s xs`: starting from `s`, `k` consecutive `try`-wrapped
applications of `op` all succeed, producing the values `xs` in order. -/
def RunSteps (op : POp T α) : Nat → St T → List α → Prop
  | 0, _, xs => xs = []
  | k + 1, s, xs =>
      ∃ x, (op (save s)).1 = Except.ok x ∧
        ∃ ys, xs = x :: ys ∧ RunSteps op k (stepSt op s) ys

/-- A perfectly ordinary composite operation built only from the library:
consume one token with `next`, then run `try(atom expected)`.  Its inner
`try` overwrites the single checkpoint slot, which is what breaks the
universally-quantified backtracking claims. -/
def seqTryOp (expected : Int) : POp Int Int := fun s =>
  match next s with
  | (.ok _, s1) => tryP (atom toString expected) s1
  | (.error e, s1) => (.error e, s1)

/-- An operation that reads the caller's checkpoint through the stream
capabilities alone: `load`, then `preview`, then `next` or fail.  Legal as a
Rust closure over the trait, since `load` and `preview` are public
capabilities. -/
def loadPeekOp : POp Int Int := fun s =>
  match preview (load s) with
  | some _ => next (load s)
  | none => (.error "unexpected eof", load s)

/-- The `|x| x < 5` predicate parser from the repository's `many` tests. -/
def lt5op : POp Int Int := predicate toString (fun x => decide (x < 5))

/-- The first two candidates of the spec's end-to-end `choose` example. -/
def exCandsFail : List (POp Int (List Int)) :=
  [string toString [1, 2, 3], string toString [4, 5, 6, 8]]

/-- The succeeding third candidate of the spec's end-to-end `choose` example. -/
def exThird : POp Int (List Int) := string toString [4, 5, 6]

/-- The candidate list of the spec's end-to-end `choose` example. -/
def exCands : List (POp Int (List Int)) := exCandsFail ++ [exThird]

/-- The starting state of the spec's end-to-end `choose` example. -/
def exSt : St Int := ⟨[4, 5, 6, 7, 8, 9, 10], 0, 0⟩

/-! ### Helper lemmas -/

theorem Tame.fst {op : POp T α} (hT : Tame op) (i : List T) (c sv sv' : Nat) :
    (op ⟨i, c, sv⟩).1 = (op ⟨i, c, sv'⟩).1 := by
  rw [(hT i c sv).1, (hT i c sv').1]

theorem Tame.pair {op : POp T α} (hT : Tame op) (i : List T) (c sv : Nat) :
    op ⟨i, c, sv⟩ = ((op ⟨i, c, 0⟩).1, ⟨i, (op ⟨i, c, 0⟩).2.cursor, sv⟩) :=
  Prod.ext (hT i c sv).1 (hT i c sv).2

theorem tame_next : Tame (next (T := T)) := by
  intro i c sv
  cases hg : i[c]? <;> simp [next, consume, hg]

theorem tame_predicate (render : T → String) (pred : T → Bool) :
    Tame (predicate render pred) := by
  intro i c sv
  cases hg : i[c]? with
  | none => simp [predicate, next, consume, hg]
  | some x => by_cases hp : pred x <;> simp [predicate, next, consume, hg, hp]

theorem tame_atom (render : T → String) (expected : T) :
    Tame (atom render expected) := by
  intro i c sv
  cases hg : i[c]? with
  | none => simp [atom, next, consume, hg]
  | some x => by_cases hx : x = expected <;> simp [atom, next, consume, hg, hx]

theorem tame_stringGo (render : T → String) (q : List T) :
    ∀ acc : List T, Tame (stringGo render q acc) := by
  induction q with
  | nil => intro acc i c sv; exact ⟨rfl, rfl⟩
  | cons cHd cs ih =>
      intro acc i c sv
      have ha := tame_atom render cHd
      rcases hA0 : atom render cHd ⟨i, c, 0⟩ with ⟨r0, t0⟩
      have ht0 : t0 = ⟨i, t0.cursor, 0⟩ := by
        have h2 := (ha i c 0).2
        rw [hA0] at h2
        simpa using h2
      have hAsv : atom render cHd ⟨i, c, sv⟩ = (r0, ⟨i, t0.cursor, sv⟩) := by
        refine Prod.ext ?hl ?hr
        · rw [(ha i c sv).1, hA0]
        · rw [(ha i c sv).2, hA0]
      cases r0 with
      | ok x =>
          have hgoal := ih (x :: acc) i t0.cursor sv
          rw [ht0] at hA0
          simpa [stringGo, hAsv, hA0] using hgoal
      | error e => simp [stringGo, hAsv, hA0]

theorem tame_string (render : T → String) (q : List T) : Tame (string render q) :=
  tame_stringGo render q []

theorem tryP_result (op : POp T α) (s : St T) : (tryP op s).1 = (op (save s)).1 := by
  rcases hop : op (save s) with ⟨r, s1⟩
  cases r <;> simp [tryP, hop]

theorem tryOk_state (op : POp T α) (s : St T)
    (h : isOkE ((op (save s)).1) = true) : (tryP op s).2 = (op (save s)).2 := by
  rcases hop : op (save s) with ⟨r, s1⟩
  cases r with
  | ok x => simp [tryP, hop]
  | error e => rw [hop] at h; simp [isOkE] at h

theorem tryFail_cursor (op : POp T α) (hT : Tame op) (s : St T)
    (h : isOkE ((op (save s)).1) = false) : (tryP op s).2.cursor = s.cursor := by
  obtain ⟨i, c, sv⟩ := s
  have hsave : save (⟨i, c, sv⟩ : St T) = ⟨i, c, c⟩ := rfl
  rw [hsave] at h
  have hp := hT.pair i c c
  rcases hr : (op (⟨i, c, 0⟩ : St T)).1 with e | x
  · have hop : op (⟨i, c, c⟩ : St T) =
        (Except.error e, ⟨i, (op (⟨i, c, 0⟩ : St T)).2.cursor, c⟩) := by rw [hp, hr]
    simp [tryP, hsave, hop, load]
  · rw [hp, hr] at h
    simp [isOkE] at h

theorem stepSt_input {op : POp T α} (hT : Tame op) (s : St T) :
    (stepSt op s).input = s.input := by
  obtain ⟨i, c, sv⟩ := s
  have hc := (hT i c c).2
  simp [stepSt, save, hc]

theorem iterSt_input {op : POp T α} (hT : Tame op) :
    ∀ (k : Nat) (s : St T), (iterSt op k s).input = s.input := by
  intro k
  induction k with
  | zero => intro s; rfl
  | succ n ih => intro s; rw [iterSt, ih (stepSt op s), stepSt_input hT]

/-- `manyGo` ignores the incoming checkpoint slot whenever it runs at least
one iteration, because each iteration begins with `save`. -/
theorem manyGo_saved_irrel (op : POp T α) (fuel : Nat) (acc : List α)
    (i : List T) (c sv sv' : Nat) (hf : 0 < fuel) :
    manyGo op fuel acc ⟨i, c, sv⟩ = manyGo op fuel acc ⟨i, c, sv'⟩ := by
  cases fuel with
  | zero => omega
  | succ f =>
      have hs : save (⟨i, c, sv⟩ : St T) = save (⟨i, c, sv'⟩ : St T) := rfl
      simp only [manyGo, tryP, hs]

/-- The `many` loop, unrolled: `k` successful `try`-wrapped applications
followed by one failing attempt return the `k` collected values and the
state rolled back to just after the `k`-th success. -/
theorem manyGo_run (op : POp T α) (hT : Tame op) :
    ∀ (k : Nat) (s : St T) (xs acc : List α) (fuel : Nat),
      RunSteps op k s xs →
      isOkE ((op (save (iterSt op k s))).1) = false →
      k < fuel →
      manyGo op fuel acc s =
        (.ok (acc.reverse ++ xs),
         ⟨s.input, (iterSt op k s).cursor, (iterSt op k s).cursor⟩) := by
  intro k
  induction k with
  | zero =>
      intro s xs acc fuel hrun hfail hfuel
      have hxs : xs = [] := hrun
      subst hxs
      cases fuel with
      | zero => omega
      | succ f =>
          obtain ⟨i, c, sv⟩ := s
          have hsave : save (⟨i, c, sv⟩ : St T) = ⟨i, c, c⟩ := rfl
          rw [show iterSt op 0 (⟨i, c, sv⟩ : St T) = ⟨i, c, sv⟩ from rfl, hsave] at hfail
          have hp := hT.pair i c c
          rcases hr : (op (⟨i, c, 0⟩ : St T)).1 with e | x
          · have hop : op (⟨i, c, c⟩ : St T) =
                (Except.error e, ⟨i, (op (⟨i, c, 0⟩ : St T)).2.cursor, c⟩) := by rw [hp, hr]
            simp [manyGo, tryP, hsave, hop, load, iterSt]
          · rw [hp, hr] at hfail
            simp [isOkE] at hfail
  | succ n ih =>
      intro s xs acc fuel hrun hfail hfuel
      obtain ⟨x, hok, ys, hxs, hrest⟩ := hrun
      subst hxs
      cases fuel with
      | zero => omega
      | succ f =>
          rcases hop : op (save s) with ⟨r, s1⟩
          rw [hop] at hok
          simp only at hok
          subst hok
          have hstep : stepSt op s = s1 := by rw [stepSt, hop]
          have hiter : iterSt op (n + 1) s = iterSt op n s1 := by rw [iterSt, hstep]
          rw [hiter] at hfail
          rw [hstep] at hrest
          have hrec := ih s1 ys (x :: acc) f hrest hfail (by omega)
          have hinput : s1.input = s.input := by
            rw [← hstep]; exact stepSt_input hT s
          calc manyGo op (f + 1) acc s
              = manyGo op f (x :: acc) s1 := by simp [manyGo, tryP, hop]
            _ = (.ok ((x :: acc).reverse ++ ys),
                 ⟨s1.input, (iterSt op n s1).cursor, (iterSt op n s1).cursor⟩) := hrec
            _ = (.ok (acc.reverse ++ x :: ys),
                 ⟨s.input, (iterSt op (n + 1) s).cursor, (iterSt op (n + 1) s).cursor⟩) := by
                rw [hinput, hiter]
                simp

theorem drop_cons_head {β : Type} {l rest : List β} {x : β} {n : Nat}
    (h : l.drop n = x :: rest) : l[n]? = some x ∧ l.drop (n + 1) = rest := by
  induction l generalizing n with
  | nil => simp at h
  | cons a t ih =>
      cases n with
      | zero =>
          rw [List.drop_zero] at h
          injection h with h1 h2
          subst h1
          subst h2
          exact ⟨by simp, by simp⟩
      | succ n =>
          rw [List.drop_succ_cons] at h
          have := ih h
          simpa using this

/-- Stepping `stringGo` through a stretch of expected tokens that matches
the stream: each matched token is consumed by its `atom` and pushed onto
the accumulator. -/
theorem stringGo_matched (render : T → String) :
    ∀ (p q acc : List T) (i : List T) (cur sv : Nat) (tl : List T),
      i.drop cur = p ++ tl →
      stringGo render (p ++ q) acc ⟨i, cur, sv⟩ =
        stringGo render q (p.reverse ++ acc) ⟨i, cur + p.length, sv⟩ := by
  intro p
  induction p with
  | nil => intro q acc i cur sv tl h; simp
  | cons c p ih =>
      intro q acc i cur sv tl h
      rw [List.cons_append] at h
      have hd := drop_cons_head h
      have hstep : atom render c ⟨i, cur, sv⟩ = (.ok c, ⟨i, cur + 1, sv⟩) := by
        simp [atom, next, consume, hd.1]
      calc stringGo render ((c :: p) ++ q) acc ⟨i, cur, sv⟩
          = stringGo render (p ++ q) (c :: acc) ⟨i, cur + 1, sv⟩ := by
            simp [stringGo, hstep]
        _ = stringGo render q (p.reverse ++ (c :: acc)) ⟨i, cur + 1 + p.length, sv⟩ :=
            ih q (c :: acc) i (cur + 1) sv tl hd.2
        _ = stringGo render q ((c :: p).reverse ++ acc) ⟨i, cur + (c :: p).length, sv⟩ := by
            rw [show cur + 1 + p.length = cur + (c :: p).length by simp; omega]
            rw [show (c :: p).reverse ++ acc = p.reverse ++ (c :: acc) by simp]

/-- After all candidates of `choose` have failed (each one tame), the state
has the original cursor and the synthesized error refers to it. -/
theorem choose_fail_aux (render : T → String) :
    ∀ (ops : List (POp T α)) (i : List T) (c sv : Nat),
      (∀ op ∈ ops, Tame op) →
      (∀ op ∈ ops, isOkE ((op (⟨i, c, sv⟩ : St T)).1) = false) →
      (choose render ops (⟨i, c, sv⟩ : St T)).1 =
          .error (chooseErrMsg render (⟨i, c, sv⟩ : St T)) ∧
        (choose render ops (⟨i, c, sv⟩ : St T)).2.cursor = c := by
  intro ops
  induction ops with
  | nil => intro i c sv _ _; exact ⟨rfl, rfl⟩
  | cons op rest ih =>
      intro i c sv hT hF
      have hTop : Tame op := hT op (by simp)
      have hp := hTop.pair i c c
      have hsave : save (⟨i, c, sv⟩ : St T) = ⟨i, c, c⟩ := rfl
      rcases hr : (op (⟨i, c, 0⟩ : St T)).1 with e | x
      · have hop : op (⟨i, c, c⟩ : St T) =
            (Except.error e, ⟨i, (op (⟨i, c, 0⟩ : St T)).2.cursor, c⟩) := by rw [hp, hr]
        have hrec := ih i c c (fun p hp1 => hT p (by simp [hp1]))
          (fun p hp1 => by
            rw [(hT p (by simp [hp1])).fst i c c sv]
            exact hF p (by simp [hp1]))
        have hch : choose render (op :: rest) (⟨i, c, sv⟩ : St T) =
            choose render rest (⟨i, c, c⟩ : St T) := by
          simp [choose, tryP, hsave, hop, load]
        rw [hch]
        exact hrec
      · have hfx := hF op (by simp)
        rw [hTop.fst i c sv 0, hr] at hfx
        simp [isOkE] at hfx

/-- When the candidates before `op` all fail (each one tame) and `op`
succeeds, `choose` returns `op`'s result with the cursor `op` reached. -/
theorem choose_ok_aux (render : T → String) :
    ∀ (l1 : List (POp T α)) (op : POp T α) (l2 : List (POp T α)) (i : List T) (c sv : Nat),
      (∀ p ∈ l1, Tame p) → Tame op →
      (∀ p ∈ l1, isOkE ((p (⟨i, c, sv⟩ : St T)).1) = false) →
      isOkE ((op (⟨i, c, sv⟩ : St T)).1) = true →
      (choose render (l1 ++ op :: l2) (⟨i, c, sv⟩ : St T)).1 =
          (op (⟨i, c, sv⟩ : St T)).1 ∧
        (choose render (l1 ++ op :: l2) (⟨i, c, sv⟩ : St T)).2.cursor =
          (op (⟨i, c, sv⟩ : St T)).2.cursor := by
  intro l1
  induction l1 with
  | nil =>
      intro op l2 i c sv _ hTop _ hok
      have hp := hTop.pair i c c
      have hsave : save (⟨i, c, sv⟩ : St T) = ⟨i, c, c⟩ := rfl
      rcases hr : (op (⟨i, c, 0⟩ : St T)).1 with e | x
      · rw [hTop.fst i c sv 0, hr] at hok
        simp [isOkE] at hok
      · have hop : op (⟨i, c, c⟩ : St T) =
            (Except.ok x, ⟨i, (op (⟨i, c, 0⟩ : St T)).2.cursor, c⟩) := by rw [hp, hr]
        have h1 : (op (⟨i, c, sv⟩ : St T)).1 = Except.ok x := by
          rw [hTop.fst i c sv 0, hr]
        have h2 : (op (⟨i, c, sv⟩ : St T)).2.cursor = (op (⟨i, c, 0⟩ : St T)).2.cursor := by
          rw [(hTop i c sv).2]
        constructor
        · simp [choose, tryP, hsave, hop, h1]
        · simp [choose, tryP, hsave, hop, h2]
  | cons p l1 ih =>
      intro op l2 i c sv hT1 hTop hF1 hok
      have hTp : Tame p := hT1 p (by simp)
      have hpp := hTp.pair i c c
      have hsave : save (⟨i, c, sv⟩ : St T) = ⟨i, c, c⟩ := rfl
      rcases hr : (p (⟨i, c, 0⟩ : St T)).1 with e | x
      · have hop : p (⟨i, c, c⟩ : St T) =
            (Except.error e, ⟨i, (p (⟨i, c, 0⟩ : St T)).2.cursor, c⟩) := by rw [hpp, hr]
        have hch : choose render ((p :: l1) ++ op :: l2) (⟨i, c, sv⟩ : St T) =
            choose render (l1 ++ op :: l2) (⟨i, c, c⟩ : St T) := by
          simp [choose, tryP, hsave, hop, load]
        have hrec := ih op l2 i c c (fun q hq => hT1 q (by simp [hq])) hTop
          (fun q hq => by
            rw [(hT1 q (by simp [hq])).fst i c c sv]
            exact hF1 q (by simp [hq]))
          (by rw [hTop.fst i c c sv]; exact hok)
        rw [hch]
        refine ⟨hrec.1.trans ?h1, hrec.2.trans ?h2⟩
        · exact (hTop.fst i c c sv)
        · rw [(hTop i c c).2, (hTop i c sv).2]
      · have hfp := hF1 p (by simp)
        rw [hTp.fst i c sv 0, hr] at hfp
        simp [isOkE] at hfp

/-! ### Claim theorems -/

/-- C1 (amended): `try(op)` propagates op's result or error unchanged and,
on success, leaves the state exactly where op left it; on failure it
restores the cursor to the pre-call position provided op does not itself
touch the stream's single checkpoint slot (`Tame`).  The unrestricted claim
is refuted by `tryP_spec_cex`. -/
theorem tryP_spec (op : POp T α) (s : St T) :
    (tryP op s).1 = (op (save s)).1 ∧
    (isOkE ((op (save s)).1) = true → (tryP op s).2 = (op (save s)).2) ∧
    (Tame op → isOkE ((op (save s)).1) = false → (tryP op s).2.cursor = s.cursor) :=
  ⟨tryP_result op s, fun h => tryOk_state op s h, fun hT h => tryFail_cursor op hT s h⟩

/-- Witness for `tryP_spec`: `try(atom 7)` on input `[3]` fails, propagates
the atom's error, and leaves the cursor at the starting position 0. -/
theorem tryP_spec_witness :
    (tryP (atom toString (7 : Int)) ⟨[3], 0, 0⟩).1 =
        (atom toString (7 : Int) (save (⟨[3], 0, 0⟩ : St Int))).1 ∧
    (tryP (atom toString (7 : Int)) ⟨[3], 0, 0⟩).2.cursor = 0 := by
  have h := tryP_spec (atom toString (7 : Int)) (⟨[3], 0, 0⟩ : St Int)
  exact ⟨h.1, h.2.2 (tame_atom toString 7) (by decide)⟩

/-- C1 counterexample: `seqTryOp 99`, built purely from library combinators
(`next` then `try(atom 99)`), fails when run under `try` on `[1, 2]` from
cursor 0, yet the cursor afterwards is 1, not 0: the inner `try` overwrote
the single checkpoint slot before the outer `try` loaded it. -/
theorem tryP_spec_cex :
    isOkE ((seqTryOp 99 (save (⟨[1, 2], 0, 0⟩ : St Int))).1) = false ∧
    (tryP (seqTryOp 99) ⟨[1, 2], 0, 0⟩).2.cursor = 1 ∧
    (⟨[1, 2], 0, 0⟩ : St Int).cursor = 0 := by decide

/-- C2 (amended): for candidates that do not touch the checkpoint slot
(`Tame`), `choose` returns the result and cursor of the first succeeding
candidate, trying the candidates in order from the original position, and
when all fail it restores the cursor to the pre-choose position and
synthesizes the error from the token current there (or end-of-input).  The
unrestricted claim is refuted by `choose_spec_cex`; the end-to-end example
is `choose_spec_witness`. -/
theorem choose_spec (render : T → String) (ops : List (POp T α)) (s : St T)
    (hT : ∀ op ∈ ops, Tame op) :
    ((∀ op ∈ ops, isOkE ((op s).1) = false) →
       (choose render ops s).1 = .error (chooseErrMsg render s) ∧
       (choose render ops s).2.cursor = s.cursor) ∧
    (∀ l1 op l2, ops = l1 ++ op :: l2 →
       (∀ p ∈ l1, isOkE ((p s).1) = false) →
       isOkE ((op s).1) = true →
       (choose render ops s).1 = (op s).1 ∧
       (choose render ops s).2.cursor = (op s).2.cursor) := by
  obtain ⟨i, c, sv⟩ := s
  constructor
  · intro hF
    exact choose_fail_aux render ops i c sv hT hF
  · intro l1 op l2 heq hF1 hok
    subst heq
    exact choose_ok_aux render l1 op l2 i c sv
      (fun p hp => hT p (List.mem_append_left _ hp))
      (hT op (List.mem_append_right _ (List.mem_cons_self op l2)))
      hF1 hok

/-- Witness for `choose_spec`, the spec's end-to-end example: on tokens
`[4,5,6,7,8,9,10]`, choosing among `string [1,2,3]`, `string [4,5,6,8]` and
`string [4,5,6]` succeeds with `[4,5,6]` and cursor 3. -/
theorem choose_spec_witness :
    (choose toString exCands exSt).1 = .ok [4, 5, 6] ∧
    (choose toString exCands exSt).2.cursor = 3 := by
  have hT : ∀ op ∈ exCands, Tame op := by
    intro op hop
    simp only [exCands, exCandsFail, exThird, List.mem_append, List.mem_cons,
      List.not_mem_nil, or_false] at hop
    rcases hop with (rfl | rfl) | rfl <;> exact tame_string toString _
  have hf : ∀ p ∈ exCandsFail, isOkE ((p exSt).1) = false := by
    intro p hp
    simp only [exCandsFail, List.mem_cons, List.not_mem_nil, or_false] at hp
    rcases hp with rfl | rfl <;> decide
  have h := (choose_spec toString exCands exSt hT).2
      exCandsFail exThird [] rfl hf (by decide)
  constructor
  · rw [h.1]; decide
  · rw [h.2]; decide

/-- C2 counterexample: with candidates `[seqTryOp 99, atom 1]` on `[1, 2]`,
the first candidate fails but leaves the cursor at 1 (its inner `try`
clobbered the checkpoint), so the second candidate — which would succeed at
the original position 0 — is attempted at position 1 and fails; `choose`
then reports the token at position 1, not the original position 0. -/
theorem choose_spec_cex :
    isOkE ((seqTryOp 99 (⟨[1, 2], 0, 0⟩ : St Int)).1) = false ∧
    (atom toString (1 : Int) ⟨[1, 2], 0, 0⟩).1 = .ok 1 ∧
    choose toString [seqTryOp 99, atom toString 1] ⟨[1, 2], 0, 0⟩ =
      (.error "unexpected token 2", ⟨[1, 2], 1, 1⟩) := by decide

/-- C3 (amended): when Q is not a prefix of the stream S, `string Q` fails
at the first mismatching index j with the error `atom` produces there:
`"unexpected token S[j], expected Q[j]"` with the cursor one past the
mismatching token (index j + 1) when a token is present, or
`"unexpected eof"` with the cursor still at j when the stream ended there.
The original claim's "cursor at the mismatching index" is refuted by
`string_mismatch_cex`. -/
theorem string_mismatch_spec (render : T → String) (S Q : List T) (j : Nat)
    (hjQ : j < Q.length) (hpre : S.take j = Q.take j)
    (hmis : ∀ h : j < S.length, ¬ S[j] = Q[j]) :
    (∀ h : j < S.length,
        string render Q ⟨S, 0, 0⟩ =
          (.error ("unexpected token " ++ render S[j] ++ ", expected " ++ render Q[j]),
           ⟨S, j + 1, 0⟩)) ∧
    (S.length = j →
        string render Q ⟨S, 0, 0⟩ = (.error "unexpected eof", ⟨S, j, 0⟩)) := by
  have htake : (Q.take j).length = j := by
    rw [List.length_take]; omega
  have hq : Q = Q.take j ++ (Q[j] :: Q.drop (j + 1)) := by
    conv_lhs => rw [← List.take_append_drop j Q]
    rw [List.drop_eq_getElem_cons hjQ]
  have hS0 : S.drop 0 = Q.take j ++ S.drop j := by
    rw [List.drop_zero]
    conv_lhs => rw [← List.take_append_drop j S]
    rw [hpre]
  have hmain : string render Q ⟨S, 0, 0⟩ =
      stringGo render (Q[j] :: Q.drop (j + 1)) ((Q.take j).reverse) ⟨S, j, 0⟩ := by
    conv_lhs => rw [string, hq]
    rw [stringGo_matched render (Q.take j) (Q[j] :: Q.drop (j + 1)) [] S 0 0 (S.drop j) hS0]
    rw [htake]
    simp only [List.append_nil, Nat.zero_add]
  constructor
  · intro h
    have hg : S[j]? = some S[j] := List.getElem?_eq_getElem h
    have hat : atom render Q[j] ⟨S, j, 0⟩ =
        (.error ("unexpected token " ++ render S[j] ++ ", expected " ++ render Q[j]),
         ⟨S, j + 1, 0⟩) := by
      simp [atom, next, consume, hg, hmis h]
    rw [hmain]
    simp [stringGo, hat]
  · intro hlen
    have hg : S[j]? = none := List.getElem?_eq_none (by omega)
    have hat : atom render Q[j] ⟨S, j, 0⟩ = (.error "unexpected eof", ⟨S, j, 0⟩) := by
      simp [atom, next, consume, hg]
    rw [hmain]
    simp [stringGo, hat]

/-- Witness for `string_mismatch_spec`, the repository's own failing test:
`string [2,4,6]` on stream `[2,5,6]` fails at index 1 with the atom error
and the cursor at 2 (one past the mismatching token). -/
theorem string_mismatch_witness :
    string toString [2, 4, 6] ⟨[2, 5, 6], 0, 0⟩ =
      (.error "unexpected token 5, expected 4", ⟨[2, 5, 6], 2, 0⟩) := by
  have h := (string_mismatch_spec toString [2, 5, 6] [2, 4, 6] 1
      (by decide) (by decide) (fun h => by simp)).1 (by decide)
  rw [h]; decide

/-- C3 counterexample: on stream `[2,5,6]`, `string [2,4,6]` mismatches at
index 1; the cursor afterwards is 2, not the mismatching index 1, because
`atom` consumed the offending token before failing. -/
theorem string_mismatch_cex :
    string toString [2, 4, 6] ⟨[2, 5, 6], 0, 0⟩ =
      (.error "unexpected token 5, expected 4", ⟨[2, 5, 6], 2, 0⟩) ∧
    (2 : Nat) ≠ 1 := by decide

/-- C4 (amended): for an operation that does not touch the checkpoint slot
(`Tame`), if `op` succeeds exactly `k` consecutive `try`-wrapped times from
`s` yielding `xs` and the next attempt fails, then `many op` (with fuel
exceeding the k + 1 attempts of the unbounded Rust loop) returns exactly
`xs` with the cursor immediately after the k-th success, the failing
attempt having been rolled back; `k = 0` succeeds with `[]`.  The
unrestricted claim is refuted by `many_spec_cex`. -/
theorem many_spec (op : POp T α) (hT : Tame op) (k : Nat) (s : St T) (xs : List α)
    (hrun : RunSteps op k s xs)
    (hfail : isOkE ((op (save (iterSt op k s))).1) = false)
    (fuel : Nat) (hfuel : k < fuel) :
    many op fuel s =
      (.ok xs, ⟨s.input, (iterSt op k s).cursor, (iterSt op k s).cursor⟩) := by
  have h := manyGo_run op hT k s xs [] fuel hrun hfail hfuel
  simpa [many] using h

/-- Witness for `many_spec`, the spec's end-to-end example: on
`[1,2,3,4,5,6,7,8]`, `many (predicate (x < 5))` returns `[1,2,3,4]` with
the cursor at 4. -/
theorem many_spec_witness :
    many lt5op 9 ⟨[1, 2, 3, 4, 5, 6, 7, 8], 0, 0⟩ =
      (.ok [1, 2, 3, 4], ⟨[1, 2, 3, 4, 5, 6, 7, 8], 4, 4⟩) := by
  have hrun : RunSteps lt5op 4 ⟨[1, 2, 3, 4, 5, 6, 7, 8], 0, 0⟩ [1, 2, 3, 4] :=
    ⟨1, by decide, [2, 3, 4], rfl, 2, by decide, [3, 4], rfl, 3, by decide, [4], rfl,
      4, by decide, [], rfl, rfl⟩
  have h := many_spec lt5op (tame_predicate toString (fun x => decide (x < 5))) 4
    ⟨[1, 2, 3, 4, 5, 6, 7, 8], 0, 0⟩ [1, 2, 3, 4] hrun (by decide) 9 (by decide)
  rw [h]; decide

/-- C4 counterexample: `seqTryOp 5` (library-built: `next` then
`try(atom 5)`) on `[0,5,0,9]` succeeds exactly once, producing `[5]` with
the cursor at 2 after that success; but `many` ends with the cursor at 3,
because the failing attempt was rolled back to the position saved by the
op's inner `try`, not to the position after the first success. -/
theorem many_spec_cex :
    RunSteps (seqTryOp 5) 1 ⟨[0, 5, 0, 9], 0, 0⟩ [5] ∧
    isOkE ((seqTryOp 5 (save (iterSt (seqTryOp 5) 1 ⟨[0, 5, 0, 9], 0, 0⟩))).1) = false ∧
    (iterSt (seqTryOp 5) 1 ⟨[0, 5, 0, 9], 0, 0⟩).cursor = 2 ∧
    (many (seqTryOp 5) 5 ⟨[0, 5, 0, 9], 0, 0⟩).2.cursor = 3 := by
  refine ⟨⟨5, by decide, [], rfl, rfl⟩, by decide, by decide, by decide⟩

/-- C5: `predicate(pred)` consumes one token via `next` (token present at
the cursor); if the predicate rejects it, it fails with
`"unexpected token <rendered>"`, and the token stays consumed on failure:
the cursor is advanced past it in both branches, with no backtrack. -/
theorem predicate_spec (render : T → String) (pred : T → Bool) (s : St T)
    (h : s.cursor < s.input.length) :
    predicate render pred s =
      (if pred s.input[s.cursor] then Except.ok s.input[s.cursor]
       else Except.error ("unexpected token " ++ render s.input[s.cursor]),
       ⟨s.input, s.cursor + 1, s.savedCursor⟩) := by
  have hg : s.input[s.cursor]? = some s.input[s.cursor] := List.getElem?_eq_getElem h
  by_cases hp : pred s.input[s.cursor] <;> simp [predicate, next, consume, hg, hp]

/-- Witness for `predicate_spec`, the repository's failing test: an
evenness predicate on `[3]` fails with `"unexpected token 3"` and the
cursor advanced to 1. -/
theorem predicate_spec_witness :
    predicate toString (fun x => decide (x % 2 = 0)) (⟨[3], 0, 0⟩ : St Int) =
      (.error "unexpected token 3", ⟨[3], 1, 0⟩) := by
  have h := predicate_spec toString (fun x : Int => decide (x % 2 = 0))
    ⟨[3], 0, 0⟩ (by decide)
  refine h.trans ?_
  decide

/-- C6 (amended): when the first application of op fails, `many1` propagates
that failure untouched with no rollback of whatever it consumed (this part
holds for every operation); when op succeeds at least once and does not
touch the checkpoint slot (`Tame`), `many1` returns exactly what `many`
returns.  The unrestricted second part is refuted by `many1_spec_cex`. -/
theorem many1_spec (op : POp T α) (fuel k : Nat) (s : St T) (xs : List α) :
    (∀ e, (op s).1 = .error e → many1 op fuel s = (.error e, (op s).2)) ∧
    (Tame op → RunSteps op (k + 1) s xs →
      isOkE ((op (save (iterSt op (k + 1) s))).1) = false →
      k + 1 < fuel →
      many1 op fuel s = many op fuel s) := by
  constructor
  · intro e he
    rcases hop : op s with ⟨r, s1⟩
    rw [hop] at he
    simp only at he
    subst he
    simp [many1, hop]
  · intro hT hrun hfail hfuel
    obtain ⟨i, c, sv⟩ := s
    have hmany := manyGo_run op hT (k + 1) ⟨i, c, sv⟩ xs [] fuel hrun hfail hfuel
    obtain ⟨x, hok, ys, hxs, hrest⟩ := hrun
    have hsave : save (⟨i, c, sv⟩ : St T) = ⟨i, c, c⟩ := rfl
    rw [hsave] at hok
    have hok0 : (op (⟨i, c, 0⟩ : St T)).1 = Except.ok x :=
      (hT.fst i c c 0).symm.trans hok
    have hopsv : op (⟨i, c, sv⟩ : St T) =
        (Except.ok x, ⟨i, (op (⟨i, c, 0⟩ : St T)).2.cursor, sv⟩) := by
      rw [hT.pair i c sv, hok0]
    have hstep : stepSt op ⟨i, c, sv⟩ =
        ⟨i, (op (⟨i, c, 0⟩ : St T)).2.cursor, c⟩ := by
      rw [stepSt, hsave, hT.pair i c c]
    have hiter : iterSt op (k + 1) (⟨i, c, sv⟩ : St T) =
        iterSt op k ⟨i, (op (⟨i, c, 0⟩ : St T)).2.cursor, c⟩ := by
      rw [show iterSt op (k + 1) (⟨i, c, sv⟩ : St T) =
        iterSt op k (stepSt op ⟨i, c, sv⟩) from rfl, hstep]
    rw [hstep] at hrest
    have hfail2 := hfail
    rw [hiter] at hfail2
    have h3 := manyGo_run op hT k ⟨i, (op (⟨i, c, 0⟩ : St T)).2.cursor, c⟩ ys [x] fuel
      hrest hfail2 (by omega)
    have h1 : many1 op fuel ⟨i, c, sv⟩ =
        manyGo op fuel [x] ⟨i, (op (⟨i, c, 0⟩ : St T)).2.cursor, sv⟩ := by
      simp [many1, hopsv]
    have h2 := manyGo_saved_irrel op fuel [x] i
      ((op (⟨i, c, 0⟩ : St T)).2.cursor) sv c (by omega)
    rw [h1, h2, h3,
      show many op fuel (⟨i, c, sv⟩ : St T) = manyGo op fuel [] ⟨i, c, sv⟩ from rfl,
      hmany, hiter, hxs]
    simp

/-- Witness for `many1_spec`: `many1 (atom 9)` on `[1]` propagates the atom
error with the consumed token left consumed, and `many1 (predicate (x < 5))`
on `[1, 2]` agrees with `many`. -/
theorem many1_spec_witness :
    many1 (atom toString (9 : Int)) 3 ⟨[1], 0, 0⟩ =
        (.error "unexpected token 1, expected 9", ⟨[1], 1, 0⟩) ∧
    many1 lt5op 4 ⟨[1, 2], 0, 0⟩ = many lt5op 4 ⟨[1, 2], 0, 0⟩ := by
  constructor
  · have h := (many1_spec (atom toString (9 : Int)) 3 0 ⟨[1], 0, 0⟩ []).1
      "unexpected token 1, expected 9" (by decide)
    rw [h]; decide
  · have hrun : RunSteps lt5op 2 ⟨[1, 2], 0, 0⟩ [1, 2] :=
      ⟨1, by decide, [2], rfl, 2, by decide, [], rfl, rfl⟩
    exact (many1_spec lt5op 4 1 ⟨[1, 2], 0, 0⟩ [1, 2]).2
      (tame_predicate toString (fun x => decide (x < 5))) hrun (by decide) (by decide)

/-- C6 counterexample: `loadPeekOp` reads the caller's checkpoint through
the public `load`/`preview` capabilities.  From state `⟨[1,2,3], 2, 0⟩`
(reachable by save-then-consume-twice) its first application succeeds, yet
`many1` collects `[1,2,3]` while `many` collects `[3]`: the first
application of `many1` is not wrapped in `try`, so it sees the caller's
checkpoint instead of the freshly saved one. -/
theorem many1_spec_cex :
    (loadPeekOp ⟨[1, 2, 3], 2, 0⟩).1 = .ok 1 ∧
    many1 loadPeekOp 5 ⟨[1, 2, 3], 2, 0⟩ = (.ok [1, 2, 3], ⟨[1, 2, 3], 3, 3⟩) ∧
    many loadPeekOp 5 ⟨[1, 2, 3], 2, 0⟩ = (.ok [3], ⟨[1, 2, 3], 3, 3⟩) ∧
    ([1, 2, 3] : List Int) ≠ [3] := by decide

/-- C7 (amended): `optional(op)` always succeeds with unit (never an
error); when op succeeds it leaves the state exactly where op left it, and
when op fails the cursor is restored to the pre-call position provided op
does not touch the checkpoint slot (`Tame`).  The unrestricted
cursor-restoration claim is refuted by `optional_spec_cex`. -/
theorem optional_spec (op : POp T α) (s : St T) :
    (optional op s).1 = .ok () ∧
    (isOkE ((op (save s)).1) = true → (optional op s).2 = (op (save s)).2) ∧
    (Tame op → isOkE ((op (save s)).1) = false → (optional op s).2.cursor = s.cursor) :=
  ⟨rfl, fun h => tryOk_state op s h, fun hT h => tryFail_cursor op hT s h⟩

/-- Witness for `optional_spec`: `optional (atom 1)` on `[1, 2]` succeeds
and leaves the state where the successful atom left it. -/
theorem optional_spec_witness :
    (optional (atom toString (1 : Int)) ⟨[1, 2], 0, 0⟩).1 = .ok () ∧
    (optional (atom toString (1 : Int)) ⟨[1, 2], 0, 0⟩).2 =
      (atom toString (1 : Int) (save (⟨[1, 2], 0, 0⟩ : St Int))).2 := by
  have h := optional_spec (atom toString (1 : Int)) (⟨[1, 2], 0, 0⟩ : St Int)
  exact ⟨h.1, h.2.1 (by decide)⟩

/-- C7 counterexample: `optional (seqTryOp 88)` on `[1, 2]` from cursor 0:
the wrapped operation fails, yet the cursor afterwards is 1, not the
starting position 0, because the op's inner `try` overwrote the checkpoint
slot. -/
theorem optional_spec_cex :
    isOkE ((seqTryOp 88 (save (⟨[1, 2], 0, 0⟩ : St Int))).1) = false ∧
    (optional (seqTryOp 88) ⟨[1, 2], 0, 0⟩).1 = .ok () ∧
    (optional (seqTryOp 88) ⟨[1, 2], 0, 0⟩).2.cursor = 1 ∧
    (⟨[1, 2], 0, 0⟩ : St Int).cursor = 0 := by decide

/-- C8 (amended): whenever the stream is exhausted, `next()` fails with the
error built by the stream's error factory from the message
`"unexpected eof"` (the code's literal message; the claim's
`"unexpected end of input"` is refuted by `next_eof_cex`), leaving the
state unchanged. -/
theorem next_eof_spec (s : St T) (h : s.input.length ≤ s.cursor) :
    next s = (.error "unexpected eof", s) := by
  have hg : s.input[s.cursor]? = none := List.getElem?_eq_none h
  simp [next, consume, hg]

/-- Witness for `next_eof_spec`: on empty input, `next()` fails with
`"unexpected eof"`. -/
theorem next_eof_witness :
    next (⟨[], 0, 0⟩ : St Int) = (.error "unexpected eof", ⟨[], 0, 0⟩) :=
  next_eof_spec ⟨[], 0, 0⟩ (by decide)

/-- C8 counterexample: the message `next()` hands to the error factory on
empty input is `"unexpected eof"`, which is not the claimed
`"unexpected end of input"`. -/
theorem next_eof_cex :
    (next (⟨[], 0, 0⟩ : St Int)).1 = .error "unexpected eof" ∧
    "unexpected eof" ≠ "unexpected end of input" := by decide

/-- C9: for every stream S and every prefix P of S, `string P` starting at
the beginning of S succeeds, returns exactly the tokens of P in order (as
the collected container), and leaves the cursor at `P.length`. -/
theorem string_prefix_spec (render : T → String) (S P : List T)
    (hP : S.take P.length = P) :
    string render P ⟨S, 0, 0⟩ = (.ok P, ⟨S, P.length, 0⟩) := by
  have hS0 : S.drop 0 = P ++ S.drop P.length := by
    rw [List.drop_zero]
    conv_lhs => rw [← List.take_append_drop P.length S]
    rw [hP]
  have h := stringGo_matched render P [] [] S 0 0 (S.drop P.length) hS0
  simp only [List.append_nil] at h
  rw [string, h]
  simp [stringGo]

/-- Witness for `string_prefix_spec`: `string [2, 4]` on `[2, 4, 6]`
succeeds with `[2, 4]` and cursor 2. -/
theorem string_prefix_witness :
    string toString [2, 4] ⟨[2, 4, 6], 0, 0⟩ = (.ok [2, 4], ⟨[2, 4, 6], 2, 0⟩) := by
  have h := string_prefix_spec toString [2, 4, 6] [2, 4] (by decide)
  refine h.trans ?_
  decide

/-- C10: `choose` on an empty candidate list always fails without moving
the cursor or consuming anything, with the message
`"unexpected token <rendered>"` for the current token, or
`"unexpected eof"` at end-of-input. -/
theorem choose_nil_spec (render : T → String) (s : St T) :
    (∀ x, preview s = some x →
        choose render ([] : List (POp T α)) s =
          (.error ("unexpected token " ++ render x), s)) ∧
    (preview s = none →
        choose render ([] : List (POp T α)) s = (.error "unexpected eof", s)) := by
  constructor
  · intro x hx
    simp [choose, chooseErrMsg, hx]
  · intro hx
    simp [choose, chooseErrMsg, hx]

/-- Witness for `choose_nil_spec`: with token 7 current, the synthesized
error is `"unexpected token 7"` and the state is untouched. -/
theorem choose_nil_witness :
    choose toString ([] : List (POp Int Int)) ⟨[7], 0, 0⟩ =
      (.error "unexpected token 7", ⟨[7], 0, 0⟩) := by
  have h := (@choose_nil_spec Int _ Int toString ⟨[7], 0, 0⟩).1 7 (by decide)
  rw [h]; decide

/-! ### The embedding replays the repository's own unit tests -/
example : (next (⟨[], 0, 0⟩ : St Int)).1 = .error "unexpected eof" := by decide
example : string toString [2, 4, 6] ⟨[2, 5, 6], 0, 0⟩ =
    (.error "unexpected token 5, expected 4", ⟨[2, 5, 6], 2, 0⟩) := by decide
example : choose toString
    [string toString [1, 2, 3], string toString [4, 5, 6, 8], string toString [4, 5, 6]]
    ⟨[4, 5, 6, 7, 8, 9, 10], 0, 0⟩ = (.ok [4, 5, 6], ⟨[4, 5, 6, 7, 8, 9, 10], 3, 0⟩) := by decide
example : many lt5op 9 ⟨[1, 2, 3, 4, 5, 6, 7, 8], 0, 0⟩ =
    (.ok [1, 2, 3, 4], ⟨[1, 2, 3, 4, 5, 6, 7, 8], 4, 4⟩) := by decide
example : (tryP (seqTryOp 99) ⟨[1, 2], 0, 0⟩).2 = ⟨[1, 2], 1, 1⟩ := by decide
example : many1 loadPeekOp 5 ⟨[1, 2, 3], 2, 0⟩ = (.ok [1, 2, 3], ⟨[1, 2, 3], 3, 3⟩) := by decide
example : many loadPeekOp 5 ⟨[1, 2, 3], 2, 0⟩ = (.ok [3], ⟨[1, 2, 3], 3, 3⟩) := by decide
example : many (seqTryOp 5) 5 ⟨[0, 5, 0, 9], 0, 0⟩ = (.ok [5], ⟨[0, 5, 0, 9], 3, 3⟩) := by decide

end Combinator
